import Mathlib

/-!
Shallow embedding of the `shurcooL/events` repository, centred on the
filesystem-backed event store in package `fs` (`src/fs/fs.go`,
`src/fs/schema.go`) and the event model in package `event`
(`src/event/event.go`, current revision using `Change`/`Wiki` and the
external `state` enums).

Modelling conventions:
- Go `time.Time` is modelled as an abstract instant (`nanos : Int`)
  together with its location; the store only inspects the location
  (`Time.Location() != time.UTC`).
- The external `dmitri.shuralyov.com/state` package is modelled from its
  use sites: `state.Issue` and `state.Change` are string types with the
  constants `IssueOpen`/`IssueClosed` and
  `ChangeOpen`/`ChangeClosed`/`ChangeMerged`.
- The JSON byte layer of `encoding/json` is abstracted to typed records:
  `eventDisk.MarshalJSON` produces an `EncodedRecord` (the anonymous
  struct `{Time, Container, Type, Payload}` marshalled by the Go code),
  and `eventDisk.UnmarshalJSON` consumes one.  A payload of the wrong
  shape for the record's type tag models malformed payload bytes and
  decodes to an error.
- Go interface-typed payloads become `Option` of a closed sum; a Go
  `nil` payload is `none`.
-/

namespace state

/-- Model of the external `dmitri.shuralyov.com/state` package:
`Issue` is a string type for issue states. -/
abbrev Issue := String

/-- State of an open issue. -/
def IssueOpen : Issue := "open"

/-- State of a closed issue. -/
def IssueClosed : Issue := "closed"

/-- Model of the external `dmitri.shuralyov.com/state` package:
`Change` is a string type for change states. -/
abbrev Change := String

/-- State of an open change. -/
def ChangeOpen : Change := "open"

/-- State of a closed change. -/
def ChangeClosed : Change := "closed"

/-- State of a merged change. -/
def ChangeMerged : Change := "merged"

end state

/-- Location attached to a Go `time.Time` value; the store only ever
compares it against `time.UTC`. -/
inductive Location where
  | utc : Location
  | named (name : String) : Location
deriving DecidableEq, Repr

/-- Model of Go `time.Time`: an abstract instant plus its location. -/
structure Time where
  nanos : Int
  loc : Location
deriving DecidableEq, Repr

/-- Model of `users.UserSpec` from `github.com/shurcooL/users`:
numeric ID plus domain. -/
structure UserSpec where
  ID : Nat
  Domain : String
deriving DecidableEq, Repr

/-- Model of `users.User` from `github.com/shurcooL/users`
(the fields used by this repository). -/
structure User where
  Spec : UserSpec
  Login : String
  Name : String
  Email : String
  AvatarURL : String
deriving DecidableEq, Repr

namespace event

/-- Issue is an issue event (`src/event/event.go`). -/
structure Issue where
  Action : String
  IssueTitle : String
  IssueHTMLURL : String
deriving DecidableEq, Repr

/-- Change is a change event (`src/event/event.go`). -/
structure Change where
  Action : String
  ChangeTitle : String
  ChangeHTMLURL : String
deriving DecidableEq, Repr

/-- IssueComment is an issue comment event (`src/event/event.go`). -/
structure IssueComment where
  IssueTitle : String
  IssueState : state.Issue
  CommentBody : String
  CommentHTMLURL : String
deriving DecidableEq, Repr

/-- ChangeComment is a change comment event (`src/event/event.go`). -/
structure ChangeComment where
  ChangeTitle : String
  ChangeState : state.Change
  CommentBody : String
  CommentHTMLURL : String
deriving DecidableEq, Repr

/-- Commit of a push or commit comment event (`src/event/event.go`). -/
structure Commit where
  SHA : String
  Message : String
  AuthorAvatarURL : String
  HTMLURL : String
deriving DecidableEq, Repr

/-- CommitComment is a commit comment event (`src/event/event.go`). -/
structure CommitComment where
  Commit : Commit
  CommentBody : String
deriving DecidableEq, Repr

/-- Push is a push event (`src/event/event.go`). -/
structure Push where
  Branch : String
  Head : String
  Before : String
  Commits : List Commit
  HeadHTMLURL : String
  BeforeHTMLURL : String
deriving DecidableEq, Repr

/-- Star is a star event (`src/event/event.go`). -/
structure Star where
deriving DecidableEq, Repr

/-- Create is a create event (`src/event/event.go`); the Go field
`Type` is spelt `Type_` because `Type` is a Lean keyword. -/
structure Create where
  Type_ : String
  Name : String
  Description : String
deriving DecidableEq, Repr

/-- Fork is a fork event (`src/event/event.go`). -/
structure Fork where
  Container : String
deriving DecidableEq, Repr

/-- Delete is a delete event (`src/event/event.go`); the Go field
`Type` is spelt `Type_` because `Type` is a Lean keyword. -/
structure Delete where
  Type_ : String
  Name : String
deriving DecidableEq, Repr

/-- Page of a wiki event (`src/event/event.go`). -/
structure Page where
  Action : String
  SHA : String
  Title : String
  HTMLURL : String
  CompareHTMLURL : String
deriving DecidableEq, Repr

/-- Wiki is a wiki event (`src/event/event.go`). -/
structure Wiki where
  Pages : List Page
deriving DecidableEq, Repr

/-- Closed union of the payload variants that `Event.Payload` (a Go
`interface{}` documented as one of the eleven types) may hold. -/
inductive Payload where
  | issue (p : Issue)
  | change (p : Change)
  | issueComment (p : IssueComment)
  | changeComment (p : ChangeComment)
  | commitComment (p : CommitComment)
  | push (p : Push)
  | star (p : Star)
  | create (p : Create)
  | fork (p : Fork)
  | delete (p : Delete)
  | wiki (p : Wiki)
deriving DecidableEq, Repr

/-- Event represents an event (`src/event/event.go`); a Go `nil`
payload is `none`. -/
structure Event where
  Time : Time
  Actor : User
  Container : String
  Payload : Option Payload
deriving DecidableEq, Repr

end event

namespace fs

/-- issue is an on-disk representation of event.Issue (`src/fs/schema.go`). -/
structure issue where
  Action : String
  IssueTitle : String
  IssueHTMLURL : String
deriving DecidableEq, Repr

/-- Conversion `fromIssue` of `src/fs/schema.go` (a direct Go struct
conversion). -/
def fromIssue (i : event.Issue) : issue :=
  { Action := i.Action, IssueTitle := i.IssueTitle, IssueHTMLURL := i.IssueHTMLURL }

/-- Method `issue.Issue` of `src/fs/schema.go`. -/
def issue.Issue (i : issue) : event.Issue :=
  { Action := i.Action, IssueTitle := i.IssueTitle, IssueHTMLURL := i.IssueHTMLURL }

/-- change is an on-disk representation of event.Change (`src/fs/schema.go`). -/
structure change where
  Action : String
  ChangeTitle : String
  ChangeHTMLURL : String
deriving DecidableEq, Repr

/-- Conversion `fromChange` of `src/fs/schema.go`. -/
def fromChange (c : event.Change) : change :=
  { Action := c.Action, ChangeTitle := c.ChangeTitle, ChangeHTMLURL := c.ChangeHTMLURL }

/-- Method `change.Change` of `src/fs/schema.go`. -/
def change.Change (c : change) : event.Change :=
  { Action := c.Action, ChangeTitle := c.ChangeTitle, ChangeHTMLURL := c.ChangeHTMLURL }

/-- issueComment is an on-disk representation of event.IssueComment
(`src/fs/schema.go`); the state is stored as a string token. -/
structure issueComment where
  IssueTitle : String
  IssueState : String
  CommentBody : String
  CommentHTMLURL : String
deriving DecidableEq, Repr

/-- Conversion `fromIssueComment` of `src/fs/schema.go`: the Go `switch`
on the issue state (with no default, leaving the zero string). -/
def fromIssueComment (c : event.IssueComment) : issueComment :=
  let issueState : String :=
    if c.IssueState = state.IssueOpen then "open"
    else if c.IssueState = state.IssueClosed then "closed"
    else ""
  { IssueTitle := c.IssueTitle, IssueState := issueState,
    CommentBody := c.CommentBody, CommentHTMLURL := c.CommentHTMLURL }

/-- Method `issueComment.IssueComment` of `src/fs/schema.go`: the Go
`switch` on the stored token (with no default, leaving the zero value). -/
def issueComment.IssueComment (c : issueComment) : event.IssueComment :=
  let issueState : state.Issue :=
    if c.IssueState = "open" then state.IssueOpen
    else if c.IssueState = "closed" then state.IssueClosed
    else ""
  { IssueTitle := c.IssueTitle, IssueState := issueState,
    CommentBody := c.CommentBody, CommentHTMLURL := c.CommentHTMLURL }

/-- changeComment is an on-disk representation of event.ChangeComment
(`src/fs/schema.go`); the state is stored as a string token. -/
structure changeComment where
  ChangeTitle : String
  ChangeState : String
  CommentBody : String
  CommentHTMLURL : String
deriving DecidableEq, Repr

/-- Conversion `fromChangeComment` of `src/fs/schema.go`. -/
def fromChangeComment (c : event.ChangeComment) : changeComment :=
  let changeState : String :=
    if c.ChangeState = state.ChangeOpen then "open"
    else if c.ChangeState = state.ChangeClosed then "closed"
    else if c.ChangeState = state.ChangeMerged then "merged"
    else ""
  { ChangeTitle := c.ChangeTitle, ChangeState := changeState,
    CommentBody := c.CommentBody, CommentHTMLURL := c.CommentHTMLURL }

/-- Method `changeComment.ChangeComment` of `src/fs/schema.go`. -/
def changeComment.ChangeComment (c : changeComment) : event.ChangeComment :=
  let changeState : state.Change :=
    if c.ChangeState = "open" then state.ChangeOpen
    else if c.ChangeState = "closed" then state.ChangeClosed
    else if c.ChangeState = "merged" then state.ChangeMerged
    else ""
  { ChangeTitle := c.ChangeTitle, ChangeState := changeState,
    CommentBody := c.CommentBody, CommentHTMLURL := c.CommentHTMLURL }

/-- commit is an on-disk representation of event.Commit
(`src/fs/schema.go`; the JSON field renaming of `Message` is below the
record-level model). -/
structure commit where
  SHA : String
  Message : String
  AuthorAvatarURL : String
  HTMLURL : String
deriving DecidableEq, Repr

/-- Conversion `fromCommit` of `src/fs/schema.go`. -/
def fromCommit (c : event.Commit) : commit :=
  { SHA := c.SHA, Message := c.Message,
    AuthorAvatarURL := c.AuthorAvatarURL, HTMLURL := c.HTMLURL }

/-- Method `commit.Commit` of `src/fs/schema.go`. -/
def commit.Commit (c : commit) : event.Commit :=
  { SHA := c.SHA, Message := c.Message,
    AuthorAvatarURL := c.AuthorAvatarURL, HTMLURL := c.HTMLURL }

/-- commitComment is an on-disk representation of event.CommitComment
(`src/fs/schema.go`). -/
structure commitComment where
  Commit : commit
  CommentBody : String
deriving DecidableEq, Repr

/-- Conversion `fromCommitComment` of `src/fs/schema.go`. -/
def fromCommitComment (c : event.CommitComment) : commitComment :=
  { Commit := fromCommit c.Commit, CommentBody := c.CommentBody }

/-- Method `commitComment.CommitComment` of `src/fs/schema.go`. -/
def commitComment.CommitComment (c : commitComment) : event.CommitComment :=
  { Commit := c.Commit.Commit, CommentBody := c.CommentBody }

/-- push is an on-disk representation of event.Push (`src/fs/schema.go`). -/
structure push where
  Branch : String
  Head : String
  Before : String
  Commits : List commit
  HeadHTMLURL : String
  BeforeHTMLURL : String
deriving DecidableEq, Repr

/-- Conversion `fromPush` of `src/fs/schema.go` (the Go loop over the
commits becomes a map). -/
def fromPush (p : event.Push) : push :=
  { Branch := p.Branch, Head := p.Head, Before := p.Before,
    Commits := p.Commits.map fromCommit,
    HeadHTMLURL := p.HeadHTMLURL, BeforeHTMLURL := p.BeforeHTMLURL }

/-- Method `push.Push` of `src/fs/schema.go`. -/
def push.Push (p : push) : event.Push :=
  { Branch := p.Branch, Head := p.Head, Before := p.Before,
    Commits := p.Commits.map commit.Commit,
    HeadHTMLURL := p.HeadHTMLURL, BeforeHTMLURL := p.BeforeHTMLURL }

/-- star is an on-disk representation of event.Star (`src/fs/schema.go`). -/
structure star where
deriving DecidableEq, Repr

/-- Conversion `fromStar` of `src/fs/schema.go`. -/
def fromStar (_ : event.Star) : star := {}

/-- Method `star.Star` of `src/fs/schema.go`. -/
def star.Star (_ : star) : event.Star := {}

/-- create is an on-disk representation of event.Create (`src/fs/schema.go`). -/
structure create where
  Type_ : String
  Name : String
  Description : String
deriving DecidableEq, Repr

/-- Conversion `fromCreate` of `src/fs/schema.go`. -/
def fromCreate (c : event.Create) : create :=
  { Type_ := c.Type_, Name := c.Name, Description := c.Description }

/-- Method `create.Create` of `src/fs/schema.go`. -/
def create.Create (c : create) : event.Create :=
  { Type_ := c.Type_, Name := c.Name, Description := c.Description }

/-- fork is an on-disk representation of event.Fork (`src/fs/schema.go`). -/
structure fork where
  Container : String
deriving DecidableEq, Repr

/-- Conversion `fromFork` of `src/fs/schema.go`. -/
def fromFork (f : event.Fork) : fork :=
  { Container := f.Container }

/-- Method `fork.Fork` of `src/fs/schema.go`. -/
def fork.Fork (f : fork) : event.Fork :=
  { Container := f.Container }

/-- delete is an on-disk representation of event.Delete (`src/fs/schema.go`). -/
structure delete where
  Type_ : String
  Name : String
deriving DecidableEq, Repr

/-- Conversion `fromDelete` of `src/fs/schema.go`. -/
def fromDelete (d : event.Delete) : delete :=
  { Type_ := d.Type_, Name := d.Name }

/-- Method `delete.Delete` of `src/fs/schema.go`. -/
def delete.Delete (d : delete) : event.Delete :=
  { Type_ := d.Type_, Name := d.Name }

/-- page is an on-disk representation of event.Page (`src/fs/schema.go`). -/
structure page where
  Action : String
  SHA : String
  Title : String
  HTMLURL : String
  CompareHTMLURL : String
deriving DecidableEq, Repr

/-- Conversion `fromPage` of `src/fs/schema.go`. -/
def fromPage (p : event.Page) : page :=
  { Action := p.Action, SHA := p.SHA, Title := p.Title,
    HTMLURL := p.HTMLURL, CompareHTMLURL := p.CompareHTMLURL }

/-- Method `page.Page` of `src/fs/schema.go`. -/
def page.Page (p : page) : event.Page :=
  { Action := p.Action, SHA := p.SHA, Title := p.Title,
    HTMLURL := p.HTMLURL, CompareHTMLURL := p.CompareHTMLURL }

/-- wiki is an on-disk representation of event.Wiki (`src/fs/schema.go`). -/
structure wiki where
  Pages : List page
deriving DecidableEq, Repr

/-- Conversion `fromWiki` of `src/fs/schema.go`. -/
def fromWiki (w : event.Wiki) : wiki :=
  { Pages := w.Pages.map fromPage }

/-- Method `wiki.Wiki` of `src/fs/schema.go`. -/
def wiki.Wiki (w : wiki) : event.Wiki :=
  { Pages := w.Pages.map page.Page }

/-- Closed union of the on-disk payload shapes that the `Payload`
field of the marshalled record may hold. -/
inductive DiskPayload where
  | issue (p : issue)
  | change (p : change)
  | issueComment (p : issueComment)
  | changeComment (p : changeComment)
  | commitComment (p : commitComment)
  | push (p : push)
  | star (p : star)
  | create (p : create)
  | fork (p : fork)
  | delete (p : delete)
  | wiki (p : wiki)
deriving DecidableEq, Repr

/-- eventDisk is an on-disk representation of event.Event
(`src/fs/schema.go`); Actor is omitted because it is encoded as part
of the event file path.  A Go `nil` payload is `none`. -/
structure eventDisk where
  Time : Time
  Container : String
  Payload : Option event.Payload
deriving DecidableEq, Repr

/-- Record-level model of the anonymous struct
`{Time, Container, Type, Payload}` that `eventDisk.MarshalJSON`
marshals and `eventDisk.UnmarshalJSON` reads back; this is the content
of an event file. -/
structure EncodedRecord where
  Time : Time
  Container : String
  Type_ : String
  Payload : Option DiskPayload
deriving DecidableEq, Repr

/-- Function body of `eventDisk.MarshalJSON` (`src/fs/schema.go`): the
type switch over the payload; an unmatched (or nil) payload leaves the
zero type tag and a nil payload. -/
def eventDiskMarshalJSON (e : eventDisk) : EncodedRecord :=
  match e.Payload with
  | some (.issue p) =>
    { Time := e.Time, Container := e.Container, Type_ := "issue",
      Payload := some (.issue (fromIssue p)) }
  | some (.change p) =>
    { Time := e.Time, Container := e.Container, Type_ := "change",
      Payload := some (.change (fromChange p)) }
  | some (.issueComment p) =>
    { Time := e.Time, Container := e.Container, Type_ := "issueComment",
      Payload := some (.issueComment (fromIssueComment p)) }
  | some (.changeComment p) =>
    { Time := e.Time, Container := e.Container, Type_ := "changeComment",
      Payload := some (.changeComment (fromChangeComment p)) }
  | some (.commitComment p) =>
    { Time := e.Time, Container := e.Container, Type_ := "commitComment",
      Payload := some (.commitComment (fromCommitComment p)) }
  | some (.push p) =>
    { Time := e.Time, Container := e.Container, Type_ := "push",
      Payload := some (.push (fromPush p)) }
  | some (.star p) =>
    { Time := e.Time, Container := e.Container, Type_ := "star",
      Payload := some (.star (fromStar p)) }
  | some (.create p) =>
    { Time := e.Time, Container := e.Container, Type_ := "create",
      Payload := some (.create (fromCreate p)) }
  | some (.fork p) =>
    { Time := e.Time, Container := e.Container, Type_ := "fork",
      Payload := some (.fork (fromFork p)) }
  | some (.delete p) =>
    { Time := e.Time, Container := e.Container, Type_ := "delete",
      Payload := some (.delete (fromDelete p)) }
  | some (.wiki p) =>
    { Time := e.Time, Container := e.Container, Type_ := "wiki",
      Payload := some (.wiki (fromWiki p)) }
  | none =>
    { Time := e.Time, Container := e.Container, Type_ := "", Payload := none }

/-- Function body of `eventDisk.UnmarshalJSON` (`src/fs/schema.go`):
switch on the type tag and decode the matching payload shape; an
unrecognized tag leaves a nil payload and succeeds.  A payload whose
shape does not match a recognized tag models malformed payload bytes,
which `json.Unmarshal` rejects. -/
def eventDiskUnmarshalJSON (r : EncodedRecord) : Except String eventDisk :=
  match r.Type_ with
  | "issue" =>
    match r.Payload with
    | some (.issue p) =>
      .ok { Time := r.Time, Container := r.Container, Payload := some (.issue p.Issue) }
    | _ => .error "malformed issue payload"
  | "change" =>
    match r.Payload with
    | some (.change p) =>
      .ok { Time := r.Time, Container := r.Container, Payload := some (.change p.Change) }
    | _ => .error "malformed change payload"
  | "issueComment" =>
    match r.Payload with
    | some (.issueComment p) =>
      .ok { Time := r.Time, Container := r.Container,
            Payload := some (.issueComment p.IssueComment) }
    | _ => .error "malformed issueComment payload"
  | "changeComment" =>
    match r.Payload with
    | some (.changeComment p) =>
      .ok { Time := r.Time, Container := r.Container,
            Payload := some (.changeComment p.ChangeComment) }
    | _ => .error "malformed changeComment payload"
  | "commitComment" =>
    match r.Payload with
    | some (.commitComment p) =>
      .ok { Time := r.Time, Container := r.Container,
            Payload := some (.commitComment p.CommitComment) }
    | _ => .error "malformed commitComment payload"
  | "push" =>
    match r.Payload with
    | some (.push p) =>
      .ok { Time := r.Time, Container := r.Container, Payload := some (.push p.Push) }
    | _ => .error "malformed push payload"
  | "star" =>
    match r.Payload with
    | some (.star p) =>
      .ok { Time := r.Time, Container := r.Container, Payload := some (.star p.Star) }
    | _ => .error "malformed star payload"
  | "create" =>
    match r.Payload with
    | some (.create p) =>
      .ok { Time := r.Time, Container := r.Container, Payload := some (.create p.Create) }
    | _ => .error "malformed create payload"
  | "fork" =>
    match r.Payload with
    | some (.fork p) =>
      .ok { Time := r.Time, Container := r.Container, Payload := some (.fork p.Fork) }
    | _ => .error "malformed fork payload"
  | "delete" =>
    match r.Payload with
    | some (.delete p) =>
      .ok { Time := r.Time, Container := r.Container, Payload := some (.delete p.Delete) }
    | _ => .error "malformed delete payload"
  | "wiki" =>
    match r.Payload with
    | some (.wiki p) =>
      .ok { Time := r.Time, Container := r.Container, Payload := some (.wiki p.Wiki) }
    | _ => .error "malformed wiki payload"
  | _ => .ok { Time := r.Time, Container := r.Container, Payload := none }

/-- Conversion `fromEvent` of `src/fs/schema.go`: Actor is dropped
because it is encoded as part of the event file path. -/
def fromEvent (e : event.Event) : eventDisk :=
  { Time := e.Time, Container := e.Container, Payload := e.Payload }

/-- Method `eventDisk.Event` of `src/fs/schema.go`: converts back to an
event.Event, using the actor inferred from the event file path. -/
def eventDisk.Event (e : eventDisk) (actor : User) : event.Event :=
  { Time := e.Time, Actor := actor, Container := e.Container, Payload := e.Payload }

end fs

namespace fs

/-- Maximum capacity of the ring (`const ringSize = 100` in
`src/fs/schema.go`). -/
def ringSize : Int := 100

/-- ring has capacity of ringSize elements; the zero value is an empty
ring (`src/fs/schema.go`).  The Go `int` fields are modelled as `Int`,
and Go's truncated `%` as `Int.tmod`. -/
structure ring where
  Start : Int
  Length : Int
deriving DecidableEq, Repr

/-- Method `ring.At` (`src/fs/schema.go`): the i-th index from start. -/
def ring.At (r : ring) (i : Int) : Int :=
  (r.Start + i).tmod ringSize

/-- Method `ring.Next` (`src/fs/schema.go`): a copy of the ring with
the next element added, and the index of that element. -/
def ring.Next (r : ring) : ring × Int :=
  let r' : ring :=
    if r.Length < ringSize then { r with Length := r.Length + 1 }
    else { r with Start := (r.Start + 1).tmod ringSize }
  (r', (r'.Start + r'.Length - 1).tmod ringSize)

/-- Struct `service` of `src/fs/fs.go`, restricted to the state the
operations read and write: the in-memory ring mirror, the in-memory
event array (the Go `[ringSize]event.Event` array is modelled as a
total map on `Int`; every index the code uses lies in
`[0, ringSize)`), and the user the store is scoped to. -/
structure service where
  ring : fs.ring
  events : Int → event.Event
  user : User

/-- Durable state of one store's directory: the content of the `ring`
file and of each `event-{idx}` file (`none` when the file does not
exist). -/
structure Storage where
  ringFile : Option fs.ring
  eventFiles : Int → Option EncodedRecord

/-- Errors returned by the store, as abstract values: the validation
error `errors.New("event.Time time zone must be UTC")`,
`os.ErrPermission`, and opaque errors from collaborators
(authentication lookups and durable writes). -/
inductive GoErr where
  | timeNotUTC
  | permission
  | other (msg : String)
deriving DecidableEq, Repr

/-- Durable write operations attempted by `Log`, in order: used to
state the write-ordering (temporal) properties. -/
inductive WriteOp where
  | eventSlot (idx : Int) (enc : EncodedRecord)
  | ringFile (r : fs.ring)
deriving DecidableEq, Repr

/-- Method `(*service).Log` of `src/fs/fs.go`.  Effects on the outside
world are made explicit: `auth` is the result of
`s.users.GetAuthenticatedSpec(ctx)`, and `slotRes`/`ringRes` are the
outcomes of the two durable writes (`none` = success; a failed write
leaves the file untouched in this record-level model).  The result is
the returned error, the new in-memory service state, the new durable
state, and the ordered list of attempted durable writes. -/
def service.Log (s : service) (st : Storage) (auth : Except GoErr UserSpec)
    (slotRes ringRes : Option GoErr) (e : event.Event) :
    Option GoErr × service × Storage × List WriteOp :=
  if e.Time.loc ≠ Location.utc then
    (some .timeNotUTC, s, st, [])
  else if e.Actor.Spec ≠ s.user.Spec then
    -- Skip other users.
    (none, s, st, [])
  else
    match auth with
    | .error err => (some err, s, st, [])
    | .ok authenticatedSpec =>
      if authenticatedSpec ≠ s.user.Spec then
        (some .permission, s, st, [])
      else
        let r' := (s.ring.Next).1
        let idx := (s.ring.Next).2
        -- Commit to storage first, returning error on failure.
        -- Write the event file, then write the ring file.
        let enc := eventDiskMarshalJSON (fromEvent e)
        match slotRes with
        | some err => (some err, s, st, [.eventSlot idx enc])
        | none =>
          let st1 : Storage :=
            { st with eventFiles := fun j => if j = idx then some enc else st.eventFiles j }
          match ringRes with
          | some err => (some err, s, st1, [.eventSlot idx enc, .ringFile r'])
          | none =>
            let st2 : Storage := { st1 with ringFile := some r' }
            -- Commit to memory second.
            let s' : service :=
              { s with events := fun j => if j = idx then e else s.events j, ring := r' }
            (none, s', st2, [.eventSlot idx enc, .ringFile r'])

/-- Method `(*service).List` of `src/fs/fs.go`: walk the ring from
`Length - 1` down to `0` so the latest events come first. -/
def service.List (s : service) : List event.Event :=
  ((List.range s.ring.Length.toNat).reverse).map fun (i : Nat) => s.events (s.ring.At i)

/-- Zero value of `event.Event` in Go: zero time (whose location is
UTC), zero actor, empty container, nil payload. -/
def zeroEvent : event.Event :=
  { Time := { nanos := 0, loc := .utc },
    Actor := { Spec := { ID := 0, Domain := "" }, Login := "", Name := "",
               Email := "", AvatarURL := "" },
    Container := "", Payload := none }

/-- Store state directly after `NewService`/`load` on an empty
filesystem: the zero ring and the zero event array (`src/fs/fs.go`,
`load` with `os.IsNotExist`). -/
def emptyService (user : User) : service :=
  { ring := { Start := 0, Length := 0 }, events := fun _ => zeroEvent, user := user }

/-- Durable state of an empty filesystem: no files. -/
def emptyStorage : Storage :=
  { ringFile := none, eventFiles := fun _ => none }

/-- Folds a sequence of `Log` calls (oldest first) over a service and
its durable storage, with the authentication oracle answering the
store's own user and every durable write succeeding. -/
def logAll (user : User) (es : List event.Event) : service × Storage :=
  es.foldl
    (fun p e =>
      let r := service.Log p.1 p.2 (.ok user.Spec) none none e
      (r.2.1, r.2.2.1))
    (emptyService user, emptyStorage)

/-- Representation invariant of the ring index: start in
`[0, ringSize)` and length in `[0, ringSize]`. -/
def RingInv (r : ring) : Prop :=
  0 ≤ r.Start ∧ r.Start < ringSize ∧ 0 ≤ r.Length ∧ r.Length ≤ ringSize

end fs

/-- Sample user for concrete instantiations. -/
def sampleUser : User :=
  { Spec := { ID := 1, Domain := "example.org" }, Login := "gopher",
    Name := "Sample Gopher", Email := "gopher@example.org", AvatarURL := "" }

/-- Sample UTC event owned by `sampleUser` (star payload). -/
def sampleEvent1 : event.Event :=
  { Time := { nanos := 100, loc := .utc }, Actor := sampleUser,
    Container := "example.org/starworthy", Payload := some (.star {}) }

/-- Second sample UTC event owned by `sampleUser` (issue payload). -/
def sampleEvent2 : event.Event :=
  { Time := { nanos := 200, loc := .utc }, Actor := sampleUser,
    Container := "example.org/some-app",
    Payload := some (.issue { Action := "opened", IssueTitle := "t",
                              IssueHTMLURL := "https://example.org/some-app/issues/1" }) }

/-- Sample event with a non-UTC timestamp, owned by `sampleUser`. -/
def sampleNonUTCEvent : event.Event :=
  { Time := { nanos := 300, loc := .named "America/Los_Angeles" }, Actor := sampleUser,
    Container := "example.org/some-app", Payload := none }

/-- Another user, distinct from `sampleUser`. -/
def otherUser : User :=
  { Spec := { ID := 2, Domain := "example.org" }, Login := "gopher2",
    Name := "Gopher Two", Email := "gopher2@example.org", AvatarURL := "" }

/-- Event whose actor does not match `sampleUser` and whose time is
not UTC. -/
def mismatchNonUTCEvent : event.Event :=
  { Time := { nanos := 400, loc := .named "America/Los_Angeles" }, Actor := otherUser,
    Container := "example.org/some-app", Payload := none }

/-- Event whose actor does not match `sampleUser` but whose time is UTC. -/
def mismatchUTCEvent : event.Event :=
  { Time := { nanos := 500, loc := .utc }, Actor := otherUser,
    Container := "example.org/some-app", Payload := none }

/-- Store state with a full ring (length = ringSize), scoped to
`sampleUser`. -/
def fullService : fs.service :=
  { ring := { Start := 0, Length := 100 }, events := fun _ => fs.zeroEvent,
    user := sampleUser }

/-- Durable state matching `fullService`: ring file present and every
event slot holding the encoded zero event. -/
def fullStorage : fs.Storage :=
  { ringFile := some { Start := 0, Length := 100 },
    eventFiles := fun _ => some (fs.eventDiskMarshalJSON (fs.fromEvent fs.zeroEvent)) }

/-- Validity of the state enums carried by a payload: the issue state
is one of the two issue constants and the change state one of the
three change constants (other payloads carry no state enum). -/
def validStates : Option event.Payload → Bool
  | some (.issueComment c) =>
      c.IssueState == state.IssueOpen || c.IssueState == state.IssueClosed
  | some (.changeComment c) =>
      c.ChangeState == state.ChangeOpen || c.ChangeState == state.ChangeClosed ||
      c.ChangeState == state.ChangeMerged
  | _ => true

/-- Sample issue-comment event in the open state, owned by
`sampleUser`. -/
def sampleIssueCommentEvent : event.Event :=
  { Time := { nanos := 700, loc := .utc }, Actor := sampleUser,
    Container := "example.org/another-app",
    Payload := some (.issueComment
      { IssueTitle := "feature request", IssueState := state.IssueOpen,
        CommentBody := "soon", CommentHTMLURL := "https://example.org/c" }) }

deriving instance DecidableEq for Except

namespace fs

/-- Positivity of the ring capacity. -/
lemma ringSize_pos : (0 : Int) < ringSize := by decide

/-- Truncated remainder by the ring capacity of a non-negative integer
agrees with Euclidean remainder and lies in `[0, ringSize)`. -/
lemma tmod_ringSize_bounds {a : Int} (ha : 0 ≤ a) :
    a.tmod ringSize = a % ringSize ∧ 0 ≤ a.tmod ringSize ∧ a.tmod ringSize < ringSize := by
  have h := Int.tmod_eq_emod ha (by decide : (0 : Int) ≤ ringSize)
  refine ⟨h, ?_, ?_⟩
  · rw [h]; exact Int.emod_nonneg a (by decide)
  · rw [h]; exact Int.emod_lt_of_pos a (by decide)

/-- The ring invariant is preserved by `ring.Next`. -/
lemma ringInv_next {r : ring} (h : RingInv r) : RingInv (r.Next).1 := by
  obtain ⟨h1, h2, h3, h4⟩ := h
  unfold ring.Next RingInv
  dsimp only
  split
  · refine ⟨h1, h2, ?_, ?_⟩
    · show (0 : Int) ≤ r.Length + 1
      omega
    · show r.Length + 1 ≤ ringSize
      omega
  · have hb := tmod_ringSize_bounds (a := r.Start + 1) (by omega)
    exact ⟨hb.2.1, hb.2.2, h3, h4⟩

/-- Slot indices computed by `ring.At` from a non-negative offset lie
in `[0, ringSize)`. -/
lemma ring_At_bounds {r : ring} (h : RingInv r) {i : Int} (h0 : 0 ≤ i) :
    0 ≤ r.At i ∧ r.At i < ringSize := by
  obtain ⟨h1, _, _, _⟩ := h
  have hb := tmod_ringSize_bounds (a := r.Start + i) (by omega)
  exact ⟨hb.2.1, hb.2.2⟩

/-- The in-memory state after `Log` is either unchanged or the single
success-branch update (new event written at the advance index, ring
replaced by the advanced ring). -/
lemma log_state_cases (s : service) (st : Storage) (auth : Except GoErr UserSpec)
    (slotRes ringRes : Option GoErr) (e : event.Event) :
    (service.Log s st auth slotRes ringRes e).2.1 = s ∨
    (service.Log s st auth slotRes ringRes e).2.1 =
      { s with events := fun j => if j = (s.ring.Next).2 then e else s.events j,
               ring := (s.ring.Next).1 } := by
  unfold service.Log
  split
  · exact Or.inl rfl
  split
  · exact Or.inl rfl
  split
  · exact Or.inl rfl
  split
  · exact Or.inl rfl
  split
  · exact Or.inl rfl
  split
  · exact Or.inl rfl
  · exact Or.inr rfl

end fs

namespace fs

lemma ringSize_eq : ringSize = 100 := rfl

lemma next_of_lt {r : ring} (h : r.Length < ringSize) :
    (r.Next).1 = { r with Length := r.Length + 1 } ∧
    (r.Next).2 = (r.Start + r.Length).tmod ringSize := by
  unfold ring.Next
  rw [if_pos h]
  refine ⟨rfl, ?_⟩
  dsimp only
  congr 1
  ring

lemma next_of_ge {r : ring} (h : ¬ r.Length < ringSize) :
    (r.Next).1 = { r with Start := (r.Start + 1).tmod ringSize } ∧
    (r.Next).2 = ((r.Start + 1).tmod ringSize + r.Length - 1).tmod ringSize := by
  unfold ring.Next
  rw [if_neg h]
  exact ⟨rfl, rfl⟩

lemma next_idx_full {r : ring} (hinv : RingInv r) (h : ¬ r.Length < ringSize) :
    (r.Next).2 = r.Start := by
  obtain ⟨hs0, hs1, hl0, hl1⟩ := hinv
  rw [(next_of_ge h).2]
  have hL : r.Length = ringSize := le_antisymm hl1 (by omega)
  have e1 : (r.Start + 1).tmod ringSize = (r.Start + 1) % ringSize :=
    Int.tmod_eq_emod (by omega) (by decide)
  rw [e1, hL, ringSize_eq] at *
  have hu0 : 0 ≤ (r.Start + 1) % 100 := Int.emod_nonneg _ (by decide)
  have e2 : ((r.Start + 1) % 100 + 100 - 1).tmod 100 = ((r.Start + 1) % 100 + 100 - 1) % 100 :=
    Int.tmod_eq_emod (by omega) (by decide)
  rw [e2]
  omega

lemma list_formula (s : service) :
    service.List s =
      ((List.range s.ring.Length.toNat).reverse).map
        (fun (i : Nat) => s.events ((s.ring.Start + (i : Int)).tmod ringSize)) := rfl

lemma list_after_success (s : service) (e : event.Event) (hinv : RingInv s.ring) :
    service.List
      { s with events := fun j => if j = (s.ring.Next).2 then e else s.events j,
               ring := (s.ring.Next).1 } =
    (e :: service.List s).take ringSize.toNat := by
  obtain ⟨hs0, hs1, hl0, hl1⟩ := hinv
  by_cases hL : s.ring.Length < ringSize
  · -- ring not yet full: length grows, start unchanged
    have hnext := next_of_lt hL
    rw [list_formula, list_formula]
    dsimp only
    rw [hnext.1, hnext.2]
    have hn : (s.ring.Length + 1).toNat = s.ring.Length.toNat + 1 := by omega
    rw [hn, List.range_succ, List.reverse_append]
    rw [show ([s.ring.Length.toNat].reverse ++ (List.range s.ring.Length.toNat).reverse)
        = s.ring.Length.toNat :: (List.range s.ring.Length.toNat).reverse from by simp]
    rw [List.map_cons]
    rw [List.take_of_length_le (by simp; rw [ringSize_eq] at hL ⊢; omega)]
    have hcast : ((s.ring.Length.toNat : Int)) = s.ring.Length := Int.toNat_of_nonneg hl0
    congr 1
    · rw [hcast, if_pos rfl]
    · apply List.map_congr_left
      intro i hi
      rw [List.mem_reverse, List.mem_range] at hi
      have hne : (s.ring.Start + (i : Int)).tmod ringSize
          ≠ (s.ring.Start + s.ring.Length).tmod ringSize := by
        have t1 : (s.ring.Start + (i : Int)).tmod ringSize
            = (s.ring.Start + (i : Int)) % ringSize :=
          Int.tmod_eq_emod (by omega) (by decide)
        have t2 : (s.ring.Start + s.ring.Length).tmod ringSize
            = (s.ring.Start + s.ring.Length) % ringSize :=
          Int.tmod_eq_emod (by omega) (by decide)
        rw [t1, t2, ringSize_eq]
        rw [ringSize_eq] at hL
        have hiL : (i : Int) < s.ring.Length := by omega
        omega
      rw [if_neg hne]
  · -- ring full: start advances, oldest slot reused
    have hnext := next_of_ge hL
    have hidx := next_idx_full ⟨hs0, hs1, hl0, hl1⟩ hL
    have hL100 : s.ring.Length.toNat = 100 := by
      rw [ringSize_eq] at hL hl1
      omega
    have key : ∀ i : Int, 0 ≤ i →
        ((s.ring.Start + 1).tmod ringSize + i).tmod ringSize
          = (s.ring.Start + 1 + i) % ringSize := by
      intro i h0
      have t1 : (s.ring.Start + 1).tmod ringSize = (s.ring.Start + 1) % ringSize :=
        Int.tmod_eq_emod (by omega) (by decide)
      have hu0 : 0 ≤ (s.ring.Start + 1) % ringSize := Int.emod_nonneg _ (by decide)
      have t2 : ((s.ring.Start + 1) % ringSize + i).tmod ringSize
          = ((s.ring.Start + 1) % ringSize + i) % ringSize :=
        Int.tmod_eq_emod (by omega) (by decide)
      rw [t1, t2]
      rw [ringSize_eq] at *
      omega
    rw [list_formula, list_formula]
    dsimp only
    rw [hnext.1, hidx]
    dsimp only
    rw [hL100]
    rw [show ringSize.toNat = 99 + 1 from rfl, List.take_succ_cons]
    rw [← List.map_take]
    rw [show (List.range 100).reverse.take 99
        = ((List.range 99).reverse).map Nat.succ from by decide]
    rw [List.map_map]
    rw [show (100 : Nat) = 99 + 1 from rfl, List.range_succ, List.reverse_append]
    rw [show ([99].reverse ++ (List.range 99).reverse) = 99 :: (List.range 99).reverse from by simp]
    rw [List.map_cons]
    congr 1
    · have hc : ((s.ring.Start + 1).tmod ringSize + ((99 : Nat) : Int)).tmod ringSize
          = s.ring.Start := by
        rw [key _ (by omega)]
        rw [ringSize_eq]
        omega
      rw [hc, if_pos rfl]
    · apply List.map_congr_left
      intro i hi
      rw [List.mem_reverse, List.mem_range] at hi
      dsimp only [Function.comp]
      have hcond : ((s.ring.Start + 1).tmod ringSize + (i : Int)).tmod ringSize
          ≠ s.ring.Start := by
        rw [key _ (by omega), ringSize_eq]
        have : ((i : Int)) < 99 := by omega
        omega
      rw [if_neg hcond]
      congr 1
      have t3 : (s.ring.Start + ((i.succ : Nat) : Int)).tmod ringSize
          = (s.ring.Start + ((i.succ : Nat) : Int)) % ringSize :=
        Int.tmod_eq_emod (by omega) (by decide)
      rw [key _ (by omega), t3, ringSize_eq]
      have : ((i.succ : Nat) : Int) = (i : Int) + 1 := by omega
      omega

lemma log_success (s : service) (st : Storage) (auth : Except GoErr UserSpec)
    (e : event.Event)
    (hutc : e.Time.loc = Location.utc) (hact : e.Actor.Spec = s.user.Spec)
    (hauth : auth = Except.ok s.user.Spec) :
    service.Log s st auth none none e =
      (none,
       { s with events := fun j => if j = (s.ring.Next).2 then e else s.events j,
                ring := (s.ring.Next).1 },
       { ringFile := some (s.ring.Next).1,
         eventFiles := fun j => if j = (s.ring.Next).2
            then some (eventDiskMarshalJSON (fromEvent e)) else st.eventFiles j },
       [WriteOp.eventSlot (s.ring.Next).2 (eventDiskMarshalJSON (fromEvent e)),
        WriteOp.ringFile (s.ring.Next).1]) := by
  subst hauth
  unfold service.Log
  rw [if_neg (by simp [hutc]), if_neg (by simp [hact])]
  dsimp only
  rw [if_neg (by simp)]

lemma take_append_take {α : Type} (A B : List α) (n : Nat) :
    (A ++ B.take n).take n = (A ++ B).take n := by
  rw [List.take_append_eq_append_take, List.take_append_eq_append_take, List.take_take,
    Nat.min_eq_left (Nat.sub_le _ _)]

lemma length_list_le (s : service) (h : RingInv s.ring) :
    (service.List s).length ≤ ringSize.toNat := by
  obtain ⟨_, _, hl0, hl1⟩ := h
  rw [list_formula]
  simp only [List.length_map, List.length_reverse, List.length_range]
  rw [ringSize_eq] at hl1 ⊢
  omega

lemma foldLog_list (user : User) (es : List event.Event) :
    ∀ (s : service) (st : Storage), RingInv s.ring → s.user = user →
    (∀ e ∈ es, e.Time.loc = Location.utc ∧ e.Actor.Spec = user.Spec) →
    RingInv ((es.foldl (fun p e =>
        let r := service.Log p.1 p.2 (Except.ok user.Spec) none none e
        (r.2.1, r.2.2.1)) (s, st)).1).ring ∧
    ((es.foldl (fun p e =>
        let r := service.Log p.1 p.2 (Except.ok user.Spec) none none e
        (r.2.1, r.2.2.1)) (s, st)).1).user = user ∧
    service.List ((es.foldl (fun p e =>
        let r := service.Log p.1 p.2 (Except.ok user.Spec) none none e
        (r.2.1, r.2.2.1)) (s, st)).1) =
      (es.reverse ++ service.List s).take ringSize.toNat := by
  induction es with
  | nil =>
    intro s st h1 h2 _
    refine ⟨h1, h2, ?_⟩
    rw [List.foldl_nil, List.reverse_nil, List.nil_append,
      List.take_of_length_le (length_list_le s h1)]
  | cons e es ih =>
    intro s st h1 h2 h3
    rw [List.foldl_cons]
    dsimp only
    rw [log_success s st (Except.ok user.Spec) e (h3 e (by simp)).1
      (by rw [(h3 e (by simp)).2, h2]) (by rw [h2])]
    dsimp only
    have ih' := ih
      { s with events := fun j => if j = (s.ring.Next).2 then e else s.events j,
               ring := (s.ring.Next).1 }
      { ringFile := some (s.ring.Next).1,
        eventFiles := fun j => if j = (s.ring.Next).2
          then some (eventDiskMarshalJSON (fromEvent e)) else st.eventFiles j }
      (ringInv_next h1) h2
      (fun e' he' => h3 e' (List.mem_cons_of_mem _ he'))
    refine ⟨ih'.1, ih'.2.1, ?_⟩
    rw [ih'.2.2, list_after_success s e h1, take_append_take]
    congr 1
    rw [List.reverse_cons, List.append_assoc, List.singleton_append]

end fs

/-- C1: starting from an empty store, for every sequence of k successful
Append (`Log`) calls with events e1..ek, `List` returns exactly the k
events most-recent-first when k ≤ N (N = ringSize = 100), and exactly
the N most recent events (oldest k−N evicted) when k > N. -/
theorem claimC1 (user : User) (es : List event.Event)
    (h : ∀ e ∈ es, e.Time.loc = Location.utc ∧ e.Actor.Spec = user.Spec) :
    (es.length ≤ fs.ringSize.toNat →
      fs.service.List (fs.logAll user es).1 = es.reverse) ∧
    fs.service.List (fs.logAll user es).1 = es.reverse.take fs.ringSize.toNat := by
  have base := fs.foldLog_list user es (fs.emptyService user) fs.emptyStorage
    ⟨le_refl 0, show (0 : Int) < fs.ringSize by decide, le_refl 0,
      show (0 : Int) ≤ fs.ringSize by decide⟩ rfl h
  have hempty : fs.service.List (fs.emptyService user) = [] := rfl
  unfold fs.logAll
  rw [base.2.2, hempty, List.append_nil]
  refine ⟨fun hk => ?_, rfl⟩
  rw [List.take_of_length_le (by simpa using hk)]

/-- Witness for C1: two concrete appends to an empty store yield the two
events most-recent-first. -/
theorem claimC1_witness :
    (∀ e ∈ [sampleEvent1, sampleEvent2],
      e.Time.loc = Location.utc ∧ e.Actor.Spec = sampleUser.Spec) ∧
    fs.service.List (fs.logAll sampleUser [sampleEvent1, sampleEvent2]).1
      = [sampleEvent1, sampleEvent2].reverse.take fs.ringSize.toNat :=
  ⟨by decide, (claimC1 sampleUser [sampleEvent1, sampleEvent2] (by decide)).2⟩

/-- C6: for a ring with `length < N`, `Next` increments the length and
keeps the start; for a ring with `length = N`, it advances the start by
one modulo N and keeps the length; in both cases the returned slot
index equals `(start' + length' - 1) mod N`. -/
theorem claimC6 (r : fs.ring) (h : fs.RingInv r) :
    (r.Length < fs.ringSize →
      (r.Next).1.Length = r.Length + 1 ∧ (r.Next).1.Start = r.Start) ∧
    (r.Length = fs.ringSize →
      (r.Next).1.Start = (r.Start + 1) % fs.ringSize ∧ (r.Next).1.Length = fs.ringSize) ∧
    (r.Next).2 = ((r.Next).1.Start + (r.Next).1.Length - 1) % fs.ringSize := by
  obtain ⟨hs0, hs1, hl0, hl1⟩ := h
  refine ⟨fun hlt => ?_, fun heq => ?_, ?_⟩
  · rw [(fs.next_of_lt hlt).1]
    exact ⟨rfl, rfl⟩
  · have hge : ¬ r.Length < fs.ringSize := by omega
    rw [(fs.next_of_ge hge).1]
    refine ⟨?_, heq⟩
    exact Int.tmod_eq_emod (by omega) (by decide)
  · by_cases hlt : r.Length < fs.ringSize
    · rw [(fs.next_of_lt hlt).1, (fs.next_of_lt hlt).2]
      dsimp only
      rw [Int.tmod_eq_emod (by omega) (by decide)]
      congr 1
      ring
    · rw [(fs.next_of_ge hlt).1, (fs.next_of_ge hlt).2]
      dsimp only
      have hu := fs.tmod_ringSize_bounds (a := r.Start + 1) (by omega)
      exact Int.tmod_eq_emod (by rw [fs.ringSize_eq] at hu hl1 hlt ⊢; omega) (by decide)

/-- Witness for C6 at the concrete ring `{start 3, length 10}`. -/
theorem claimC6_witness :
    ((fs.ring.mk 3 10).Next.1.Length = 10 + 1 ∧ (fs.ring.mk 3 10).Next.1.Start = 3) ∧
    (fs.ring.mk 3 10).Next.2 =
      ((fs.ring.mk 3 10).Next.1.Start + (fs.ring.mk 3 10).Next.1.Length - 1) % fs.ringSize :=
  ⟨(claimC6 (fs.ring.mk 3 10) ⟨by decide, by decide, by decide, by decide⟩).1 (by decide),
   (claimC6 (fs.ring.mk 3 10) ⟨by decide, by decide, by decide, by decide⟩).2.2⟩

/-- C9: the ring-index invariant (start in `[0, N)`, length in
`[0, N]`) holds for the zero ring, is preserved by `Next` and hence by
every `Log`, and every slot index produced by `At i` for
`i ∈ [0, length)` lies in `[0, N)`. -/
theorem claimC9 :
    fs.RingInv { Start := 0, Length := 0 } ∧
    (∀ r : fs.ring, fs.RingInv r → fs.RingInv (r.Next).1) ∧
    (∀ (r : fs.ring) (i : Int), fs.RingInv r → 0 ≤ i → i < r.Length →
      0 ≤ r.At i ∧ r.At i < fs.ringSize) ∧
    (∀ (s : fs.service) (st : fs.Storage) (auth : Except fs.GoErr UserSpec)
        (slotRes ringRes : Option fs.GoErr) (e : event.Event),
      fs.RingInv s.ring →
      fs.RingInv ((fs.service.Log s st auth slotRes ringRes e).2.1).ring) := by
  refine ⟨⟨le_refl 0, by decide, le_refl 0, by decide⟩,
    fun r h => fs.ringInv_next h,
    fun r i h h0 _ => fs.ring_At_bounds h h0,
    fun s st auth sr rr e h => ?_⟩
  rcases fs.log_state_cases s st auth sr rr e with hc | hc
  · rw [hc]
    exact h
  · rw [hc]
    exact fs.ringInv_next h

/-- Witness for C9 at a concrete full ring, offset and `Log` call. -/
theorem claimC9_witness :
    fs.RingInv (fs.ring.mk 5 100).Next.1 ∧
    (0 ≤ (fs.ring.mk 5 100).At 7 ∧ (fs.ring.mk 5 100).At 7 < fs.ringSize) ∧
    fs.RingInv ((fs.service.Log (fs.emptyService sampleUser) fs.emptyStorage
        (Except.ok sampleUser.Spec) none none sampleEvent1).2.1).ring :=
  ⟨claimC9.2.1 _ ⟨by decide, by decide, by decide, by decide⟩,
   claimC9.2.2.1 _ 7 ⟨by decide, by decide, by decide, by decide⟩ (by decide) (by decide),
   claimC9.2.2.2 _ _ _ _ _ _ ⟨by decide, by decide, by decide, by decide⟩⟩

/-- C7: for every event whose time is not expressed in UTC, `Log`
returns the validation failure, attempts no durable write, and leaves
both durable and in-memory state unchanged, so `List` output is
unaffected. -/
theorem claimC7 (s : fs.service) (st : fs.Storage) (auth : Except fs.GoErr UserSpec)
    (slotRes ringRes : Option fs.GoErr) (e : event.Event)
    (h : e.Time.loc ≠ Location.utc) :
    fs.service.Log s st auth slotRes ringRes e = (some .timeNotUTC, s, st, []) ∧
    (fs.service.Log s st auth slotRes ringRes e).2.1.List = s.List := by
  have hmain : fs.service.Log s st auth slotRes ringRes e = (some .timeNotUTC, s, st, []) := by
    unfold fs.service.Log
    rw [if_pos h]
  exact ⟨hmain, by rw [hmain]⟩

/-- Witness for C7: a concrete non-UTC event is rejected with the
validation failure and the state is untouched. -/
theorem claimC7_witness :
    fs.service.Log (fs.emptyService sampleUser) fs.emptyStorage
        (Except.ok sampleUser.Spec) none none sampleNonUTCEvent
      = (some .timeNotUTC, fs.emptyService sampleUser, fs.emptyStorage, []) ∧
    (fs.service.Log (fs.emptyService sampleUser) fs.emptyStorage
        (Except.ok sampleUser.Spec) none none sampleNonUTCEvent).2.1.List
      = (fs.emptyService sampleUser).List :=
  claimC7 (fs.emptyService sampleUser) fs.emptyStorage (Except.ok sampleUser.Spec)
    none none sampleNonUTCEvent (by decide)

/-- Counterexample to C4 as stated: an event whose actor does not match
the store's identity but whose timestamp is not UTC makes `Log` return
the validation error, not success — the UTC check runs before the
actor check (`src/fs/fs.go` lines 75-82). -/
theorem claimC4_counterexample :
    mismatchNonUTCEvent.Actor.Spec ≠ (fs.emptyService sampleUser).user.Spec ∧
    (fs.service.Log (fs.emptyService sampleUser) fs.emptyStorage
        (Except.ok sampleUser.Spec) none none mismatchNonUTCEvent).1 ≠ none := by
  decide

/-- C4 (amended): for every event with a UTC timestamp whose actor does
not match the identity the store is scoped to, `Log` is a silent no-op:
it returns success, attempts no durable write, and leaves both
in-memory and durable state (hence `List` output) unchanged. -/
theorem claimC4 (s : fs.service) (st : fs.Storage) (auth : Except fs.GoErr UserSpec)
    (slotRes ringRes : Option fs.GoErr) (e : event.Event)
    (hutc : e.Time.loc = Location.utc) (h : e.Actor.Spec ≠ s.user.Spec) :
    fs.service.Log s st auth slotRes ringRes e = (none, s, st, []) ∧
    (fs.service.Log s st auth slotRes ringRes e).2.1.List = s.List := by
  have hmain : fs.service.Log s st auth slotRes ringRes e = (none, s, st, []) := by
    unfold fs.service.Log
    rw [if_neg (by simp [hutc]), if_pos h]
  exact ⟨hmain, by rw [hmain]⟩

/-- Witness for C4 (amended) at a concrete mismatched-actor UTC event. -/
theorem claimC4_witness :
    fs.service.Log (fs.emptyService sampleUser) fs.emptyStorage
        (Except.ok sampleUser.Spec) none none mismatchUTCEvent
      = (none, fs.emptyService sampleUser, fs.emptyStorage, []) ∧
    (fs.service.Log (fs.emptyService sampleUser) fs.emptyStorage
        (Except.ok sampleUser.Spec) none none mismatchUTCEvent).2.1.List
      = (fs.emptyService sampleUser).List :=
  claimC4 (fs.emptyService sampleUser) fs.emptyStorage (Except.ok sampleUser.Spec)
    none none mismatchUTCEvent (by decide) (by decide)

/-- C8: for every encoded record whose type tag is not one of the
eleven recognized variant tags, decoding succeeds and yields a record
whose time and container are populated but whose payload is absent. -/
theorem claimC8 (r : fs.EncodedRecord)
    (h : r.Type_ ∉ (["issue", "change", "issueComment", "changeComment", "commitComment",
      "push", "star", "create", "fork", "delete", "wiki"] : List String)) :
    fs.eventDiskUnmarshalJSON r =
      Except.ok { Time := r.Time, Container := r.Container, Payload := none } := by
  unfold fs.eventDiskUnmarshalJSON
  split
  all_goals simp_all

/-- Witness for C8 at a concrete record with the unrecognized tag
`"gollum"`. -/
theorem claimC8_witness :
    fs.eventDiskUnmarshalJSON
        { Time := { nanos := 600, loc := .utc }, Container := "example.org/wiki",
          Type_ := "gollum", Payload := none }
      = Except.ok { Time := { nanos := 600, loc := .utc },
                    Container := "example.org/wiki", Payload := none } :=
  claimC8
    { Time := { nanos := 600, loc := .utc }, Container := "example.org/wiki",
      Type_ := "gollum", Payload := none }
    (by decide)

namespace fs

/-- The durable state after `Log` is one of: unchanged, the event slot
written, or the event slot and ring file both written. -/
lemma log_storage_cases (s : service) (st : Storage) (auth : Except GoErr UserSpec)
    (slotRes ringRes : Option GoErr) (e : event.Event) :
    (service.Log s st auth slotRes ringRes e).2.2.1 = st ∨
    (service.Log s st auth slotRes ringRes e).2.2.1 =
      { st with eventFiles := fun j => if j = (s.ring.Next).2
          then some (eventDiskMarshalJSON (fromEvent e)) else st.eventFiles j } ∨
    (service.Log s st auth slotRes ringRes e).2.2.1 =
      { ringFile := some (s.ring.Next).1,
        eventFiles := fun j => if j = (s.ring.Next).2
          then some (eventDiskMarshalJSON (fromEvent e)) else st.eventFiles j } := by
  unfold service.Log
  split
  · exact Or.inl rfl
  split
  · exact Or.inl rfl
  split
  · exact Or.inl rfl
  split
  · exact Or.inl rfl
  split
  · exact Or.inl rfl
  split
  · exact Or.inr (Or.inl rfl)
  · exact Or.inr (Or.inr rfl)

end fs

/-- C10: a successful `Log` modifies only the event slot at the index
returned by the ring advance (and the ring value): every other
in-memory event-array entry and every other durable event file keeps
its previous content. -/
theorem claimC10 (s : fs.service) (st : fs.Storage) (auth : Except fs.GoErr UserSpec)
    (slotRes ringRes : Option fs.GoErr) (e : event.Event)
    (h : (fs.service.Log s st auth slotRes ringRes e).1 = none) :
    ∀ j : Int, j ≠ (s.ring.Next).2 →
      (fs.service.Log s st auth slotRes ringRes e).2.1.events j = s.events j ∧
      (fs.service.Log s st auth slotRes ringRes e).2.2.1.eventFiles j = st.eventFiles j := by
  intro j hj
  constructor
  · rcases fs.log_state_cases s st auth slotRes ringRes e with hc | hc
    · rw [hc]
    · rw [hc]
      exact if_neg hj
  · rcases fs.log_storage_cases s st auth slotRes ringRes e with hc | hc | hc
    · rw [hc]
    · rw [hc]
      exact if_neg hj
    · rw [hc]
      exact if_neg hj

/-- Witness for C10: a concrete successful append leaves the slot at
index 1 (distinct from the advance index 0) untouched in memory and on
disk. -/
theorem claimC10_witness :
    (fs.service.Log (fs.emptyService sampleUser) fs.emptyStorage
        (Except.ok sampleUser.Spec) none none sampleEvent1).2.1.events 1
      = (fs.emptyService sampleUser).events 1 ∧
    (fs.service.Log (fs.emptyService sampleUser) fs.emptyStorage
        (Except.ok sampleUser.Spec) none none sampleEvent1).2.2.1.eventFiles 1
      = fs.emptyStorage.eventFiles 1 :=
  claimC10 (fs.emptyService sampleUser) fs.emptyStorage (Except.ok sampleUser.Spec)
    none none sampleEvent1 (by decide) 1 (by decide)

/-- C3: the ring-pointer write is attempted only after (and never
before) a successful event-slot write — whenever the attempted-write
trace contains a ring-file write, the slot write came first and
succeeded — and the in-memory event array and ring value are updated
only when both durable writes succeed. -/
theorem claimC3 (s : fs.service) (st : fs.Storage) (auth : Except fs.GoErr UserSpec)
    (slotRes ringRes : Option fs.GoErr) (e : event.Event) :
    ((∃ rg, fs.WriteOp.ringFile rg ∈ (fs.service.Log s st auth slotRes ringRes e).2.2.2) →
      slotRes = none ∧
      (fs.service.Log s st auth slotRes ringRes e).2.2.2 =
        [fs.WriteOp.eventSlot (s.ring.Next).2 (fs.eventDiskMarshalJSON (fs.fromEvent e)),
         fs.WriteOp.ringFile (s.ring.Next).1]) ∧
    ((slotRes ≠ none ∨ ringRes ≠ none) →
      (fs.service.Log s st auth slotRes ringRes e).2.1 = s) := by
  constructor
  · intro hrg
    obtain ⟨rg, hmem⟩ := hrg
    revert hmem
    unfold fs.service.Log
    split
    · intro hmem
      simp at hmem
    split
    · intro hmem
      simp at hmem
    split
    · intro hmem
      simp at hmem
    split
    · intro hmem
      simp at hmem
    split
    · intro hmem
      simp at hmem
    split
    · intro _
      exact ⟨rfl, rfl⟩
    · intro _
      exact ⟨rfl, rfl⟩
  · intro hcase
    unfold fs.service.Log
    split
    · rfl
    split
    · rfl
    split
    · rfl
    split
    · rfl
    split
    · rfl
    split
    · rfl
    · rcases hcase with hc | hc <;> exact absurd rfl hc

/-- Witness for C3: in a concrete successful append the attempted-write
trace is exactly the slot write followed by the ring write. -/
theorem claimC3_witness :
    (none : Option fs.GoErr) = none ∧
    (fs.service.Log (fs.emptyService sampleUser) fs.emptyStorage
        (Except.ok sampleUser.Spec) none none sampleEvent1).2.2.2 =
      [fs.WriteOp.eventSlot ((fs.emptyService sampleUser).ring.Next).2
          (fs.eventDiskMarshalJSON (fs.fromEvent sampleEvent1)),
       fs.WriteOp.ringFile ((fs.emptyService sampleUser).ring.Next).1] :=
  (claimC3 (fs.emptyService sampleUser) fs.emptyStorage (Except.ok sampleUser.Spec)
      none none sampleEvent1).1
    ⟨((fs.emptyService sampleUser).ring.Next).1, by decide⟩

/-- Counterexample to C2 as stated: with a full ring, the advance index
is the slot of the oldest live event; when the event-slot write
succeeds and the ring-pointer write fails, `Log` returns the failure
but that previously live durable event record has already been
overwritten, so previously-durable state is not unchanged. -/
theorem claimC2_counterexample :
    (0 : Int) = fullService.ring.At 0 ∧ (0 : Int) < fullService.ring.Length ∧
    (fs.service.Log fullService fullStorage (Except.ok sampleUser.Spec)
        none (some (fs.GoErr.other "disk full")) sampleEvent1).1
      = some (fs.GoErr.other "disk full") ∧
    (fs.service.Log fullService fullStorage (Except.ok sampleUser.Spec)
        none (some (fs.GoErr.other "disk full")) sampleEvent1).2.2.1.eventFiles 0
      ≠ fullStorage.eventFiles 0 := by
  decide

/-- C2 (amended): if the event-slot write fails, `Log` returns that
failure and leaves all in-memory and durable state unchanged; if the
ring-pointer write fails, `Log` returns that failure and leaves all
in-memory state, the durable ring file, and every durable event file
other than the slot at the advance index unchanged — that one slot may
already hold the new event (when the ring is full it held the oldest
live event; when it is not full it was not live). -/
theorem claimC2 (s : fs.service) (st : fs.Storage) (auth : Except fs.GoErr UserSpec)
    (slotRes ringRes : Option fs.GoErr) (e : event.Event)
    (hutc : e.Time.loc = Location.utc) (hact : e.Actor.Spec = s.user.Spec)
    (hauth : auth = Except.ok s.user.Spec) :
    (∀ err, slotRes = some err →
      fs.service.Log s st auth slotRes ringRes e =
        (some err, s, st,
         [fs.WriteOp.eventSlot (s.ring.Next).2 (fs.eventDiskMarshalJSON (fs.fromEvent e))])) ∧
    (∀ err, slotRes = none → ringRes = some err →
      (fs.service.Log s st auth slotRes ringRes e).1 = some err ∧
      (fs.service.Log s st auth slotRes ringRes e).2.1 = s ∧
      (fs.service.Log s st auth slotRes ringRes e).2.2.1.ringFile = st.ringFile ∧
      ∀ j : Int, j ≠ (s.ring.Next).2 →
        (fs.service.Log s st auth slotRes ringRes e).2.2.1.eventFiles j
          = st.eventFiles j) := by
  subst hauth
  constructor
  · intro err hsr
    subst hsr
    unfold fs.service.Log
    rw [if_neg (by simp [hutc]), if_neg (by simp [hact])]
    dsimp only
    rw [if_neg (by simp)]
  · intro err hsr hrr
    subst hsr
    subst hrr
    have hmain : fs.service.Log s st (Except.ok s.user.Spec) none (some err) e =
        (some err, s,
         { st with eventFiles := fun j => if j = (s.ring.Next).2
             then some (fs.eventDiskMarshalJSON (fs.fromEvent e)) else st.eventFiles j },
         [fs.WriteOp.eventSlot (s.ring.Next).2 (fs.eventDiskMarshalJSON (fs.fromEvent e)),
          fs.WriteOp.ringFile (s.ring.Next).1]) := by
      unfold fs.service.Log
      rw [if_neg (by simp [hutc]), if_neg (by simp [hact])]
      dsimp only
      rw [if_neg (by simp)]
    rw [hmain]
    exact ⟨rfl, rfl, rfl, fun j hj => if_neg hj⟩

/-- Witness for C2 (amended): concrete failed ring-pointer write on a
full ring leaves memory, the ring file and the unrelated slot 5
unchanged. -/
theorem claimC2_witness :
    (fs.service.Log fullService fullStorage (Except.ok sampleUser.Spec)
        none (some (fs.GoErr.other "disk full")) sampleEvent1).1
      = some (fs.GoErr.other "disk full") ∧
    (fs.service.Log fullService fullStorage (Except.ok sampleUser.Spec)
        none (some (fs.GoErr.other "disk full")) sampleEvent1).2.1 = fullService ∧
    (fs.service.Log fullService fullStorage (Except.ok sampleUser.Spec)
        none (some (fs.GoErr.other "disk full")) sampleEvent1).2.2.1.ringFile
      = fullStorage.ringFile ∧
    (fs.service.Log fullService fullStorage (Except.ok sampleUser.Spec)
        none (some (fs.GoErr.other "disk full")) sampleEvent1).2.2.1.eventFiles 5
      = fullStorage.eventFiles 5 :=
  let h := (claimC2 fullService fullStorage (Except.ok sampleUser.Spec) none
      (some (fs.GoErr.other "disk full")) sampleEvent1 (by decide) (by decide) rfl).2
      (fs.GoErr.other "disk full") rfl rfl
  ⟨h.1, h.2.1, h.2.2.1, h.2.2.2 5 (by decide)⟩

/-- C5: for every payload variant of the closed union whose state enums
hold valid values, decoding the encoding gives back exactly the
on-disk record (hence the event, excluding only the actor dropped at
the storage boundary, which is restored by `eventDisk.Event`). -/
theorem claimC5 (e : event.Event) (hp : e.Payload.isSome = true)
    (hv : validStates e.Payload = true) :
    fs.eventDiskUnmarshalJSON (fs.eventDiskMarshalJSON (fs.fromEvent e))
      = Except.ok (fs.fromEvent e) ∧
    (fs.fromEvent e).Event e.Actor = e := by
  refine ⟨?_, rfl⟩
  obtain ⟨t, a, c, p⟩ := e
  rcases p with _ | pl
  · exact absurd hp (by simp)
  rcases pl with p1 | p2 | p3 | p4 | p5 | p6 | p7 | p8 | p9 | p10 | p11
  · rfl
  · rfl
  · obtain ⟨ct, cs, cb, cu⟩ := p3
    simp only [validStates, Bool.or_eq_true, beq_iff_eq] at hv
    rcases hv with h | h <;> subst h <;> rfl
  · obtain ⟨ct, cs, cb, cu⟩ := p4
    simp only [validStates, Bool.or_eq_true, beq_iff_eq] at hv
    rcases hv with (h | h) | h <;> subst h <;> rfl
  · rfl
  · obtain ⟨br, hd, bf, cs, hu, bu⟩ := p6
    simp only [fs.eventDiskMarshalJSON, fs.eventDiskUnmarshalJSON, fs.fromEvent,
      fs.fromPush, fs.push.Push, List.map_map]
    rw [show fs.commit.Commit ∘ fs.fromCommit = id from rfl, List.map_id]
  · rfl
  · rfl
  · rfl
  · rfl
  · obtain ⟨pgs⟩ := p11
    simp only [fs.eventDiskMarshalJSON, fs.eventDiskUnmarshalJSON, fs.fromEvent,
      fs.fromWiki, fs.wiki.Wiki, List.map_map]
    rw [show fs.page.Page ∘ fs.fromPage = id from rfl, List.map_id]

/-- Witness for C5 at a concrete issue-comment event in the open
state. -/
theorem claimC5_witness :
    fs.eventDiskUnmarshalJSON (fs.eventDiskMarshalJSON (fs.fromEvent sampleIssueCommentEvent))
      = Except.ok (fs.fromEvent sampleIssueCommentEvent) ∧
    (fs.fromEvent sampleIssueCommentEvent).Event sampleIssueCommentEvent.Actor
      = sampleIssueCommentEvent :=
  claimC5 sampleIssueCommentEvent (by decide) (by decide)
